import Mathlib

/-!
Verification of the `asm_reactor` class (`unit_procs/bio.py`) of PooPyLab.

The reactor state is embedded as a record of rational-valued fields; the
kinetics model `ASM_1._dCdt` is an external collaborator and is passed as a
function parameter `dCdt`.  Python's `min` of a possibly-empty list is
modelled with `Option` (an empty sequence raises `ValueError`, modelled as
`none`, which propagates to the whole integration call).  List indexing is
modelled with `List.getD _ 0`; all claims are stated under (or at) inputs
where every index access is in bounds, matching the Python code.
-/

namespace PooPyLab

/-- A component concentration vector (Python list of floats, modelled over ℚ). -/
abbrev CVec := List ℚ

/-- Type of the external kinetics rate function `ASM_1._dCdt`:
arguments are active volume, total inflow, inlet components, current components. -/
abbrev RateFn := ℚ → ℚ → CVec → CVec → CVec

/-- The fields of `asm_reactor` (and the relevant inherited `pipe` fields)
that the integrators, mutators and `discharge` read or write.
`sludge_comps` embeds `self._sludge._comps`, `sludge_temp`/`sludge_do` the
kinetics model's environmental conditions. -/
structure ReactorState where
  active_vol : ℚ
  total_inflow : ℚ
  in_comps : CVec
  mo_comps : CVec
  so_comps : CVec
  prev_mo_comps : CVec
  prev_so_comps : CVec
  sludge_comps : CVec
  sludge_temp : ℚ
  sludge_do : ℚ
deriving DecidableEq

/-- Arguments of one call to the rate function, recorded for the call trace. -/
structure CallArgs where
  vol : ℚ
  inflow : ℚ
  inlet_comps : CVec
  cur_comps : CVec
deriving DecidableEq

/-- Python `min(list)`: the minimum of a nonempty list, error (`none`) on `[]`. -/
def pyMin (l : List ℚ) : Option ℚ := l.min?

/-- `bio.py` lines 271-276 (= 174-179): candidate step bounds for the soluble
partition: `_sludge._comps[i] / abs(rate[i])` for `i < first_index_part`
with `rate[i] != 0`. -/
def uppersSol (comps rate : CVec) (first_index_part : ℕ) : List ℚ :=
  ((List.range first_index_part).filter (fun i => decide (rate.getD i 0 ≠ 0))).map
    (fun i => comps.getD i 0 / |rate.getD i 0|)

/-- `bio.py` lines 278-283 (= 181-186): candidate step bounds for the
particulate partition: indices `first_index_part ≤ j < len(rate)` with
`rate[j] != 0`. -/
def uppersPart (comps rate : CVec) (first_index_part : ℕ) : List ℚ :=
  ((List.range' first_index_part (rate.length - first_index_part)).filter
      (fun j => decide (rate.getD j 0 ≠ 0))).map
    (fun j => comps.getD j 0 / |rate.getD j 0|)

/-- `asm_reactor._euler` (`bio.py` lines 245-309).  Computes the rate vector
once, derives the scaled soluble step `f_s * min(uppers_sol)` and advances
`_sludge._comps[i] += rate[i] * _step_sol` for `i < len(_mo_comps)`, then
republishes the result as `_so_comps` and `_mo_comps`.  The dead local
`_step_part = f_s * _max_step_part` (line 290) is exposed separately as
`eulerStepPart`; here only its `min` (which can raise) matters. -/
def euler (dCdt : RateFn) (first_index_part : ℕ) (f_s f_p : ℚ)
    (st : ReactorState) : Option ReactorState :=
  let del_C_del_t := dCdt st.active_vol st.total_inflow st.in_comps st.mo_comps
  match pyMin (uppersSol st.sludge_comps del_C_del_t first_index_part),
        pyMin (uppersPart st.sludge_comps del_C_del_t first_index_part) with
  | some max_step_sol, some _max_step_part =>
      let step_sol := f_s * max_step_sol
      let new_comps := (List.range st.sludge_comps.length).map fun i =>
        if i < st.mo_comps.length then
          st.sludge_comps.getD i 0 + del_C_del_t.getD i 0 * step_sol
        else st.sludge_comps.getD i 0
      some { st with sludge_comps := new_comps, mo_comps := new_comps,
                     so_comps := new_comps }
  | _, _ => none

/-- The soluble-partition bound `_max_step_sol = min(_uppers_sol)`
(`bio.py` line 286). -/
def eulerMaxStepSol (dCdt : RateFn) (fip : ℕ) (st : ReactorState) : Option ℚ :=
  pyMin (uppersSol st.sludge_comps
    (dCdt st.active_vol st.total_inflow st.in_comps st.mo_comps) fip)

/-- The scaled soluble step `_step_sol = f_s * _max_step_sol`
(`bio.py` line 289). -/
def eulerStepSol (dCdt : RateFn) (fip : ℕ) (f_s : ℚ) (st : ReactorState) :
    Option ℚ :=
  (eulerMaxStepSol dCdt fip st).map (fun m => f_s * m)

/-- The (dead) particulate step of `_euler`, `bio.py` line 290:
`_step_part = f_s * _max_step_part` — note the source multiplies by `f_s`,
not by the caller-supplied `f_p`. -/
def eulerStepPart (dCdt : RateFn) (fip : ℕ) (f_s f_p : ℚ)
    (st : ReactorState) : Option ℚ :=
  (pyMin (uppersPart st.sludge_comps
      (dCdt st.active_vol st.total_inflow st.in_comps st.mo_comps) fip)).map
    (fun m => f_s * m)

/-- The (dead) particulate step of `_runge_kutta_4`, `bio.py` line 193:
`_step_part = f_p * _max_step_part`. -/
def rk4StepPart (dCdt : RateFn) (fip : ℕ) (f_s f_p : ℚ)
    (st : ReactorState) : Option ℚ :=
  (pyMin (uppersPart st.sludge_comps
      (dCdt st.active_vol st.total_inflow st.in_comps st.mo_comps) fip)).map
    (fun m => f_p * m)

/-- `asm_reactor._runge_kutta_4` (`bio.py` lines 149-242), instrumented with
the list of argument tuples of every `_dCdt` call it makes, in order.
Stage vectors follow the source:
`_w2 = [mo[i] + sz_2*k1[i]]`, `_w3 = [mo[i] + sz_2*k2[i]]`,
`_w4 = [mo[i] + step_sol*k3[i]]`, and the update (lines 235-238) is
`_sludge._comps[i] + (k1+2k2+2k3+k4)[i]/6 * _step_sol`. -/
def rk4Aux (dCdt : RateFn) (first_index_part : ℕ) (f_s f_p : ℚ)
    (st : ReactorState) : Option (ReactorState × List CallArgs) :=
  let k1 := dCdt st.active_vol st.total_inflow st.in_comps st.mo_comps
  match pyMin (uppersSol st.sludge_comps k1 first_index_part),
        pyMin (uppersPart st.sludge_comps k1 first_index_part) with
  | some max_step_sol, some _max_step_part =>
      let step_sol := f_s * max_step_sol
      let sz_2 := step_sol / 2
      let w2 := (List.range k1.length).map fun i =>
        st.mo_comps.getD i 0 + sz_2 * k1.getD i 0
      let k2 := dCdt st.active_vol st.total_inflow st.in_comps w2
      let w3 := (List.range k2.length).map fun i =>
        st.mo_comps.getD i 0 + sz_2 * k2.getD i 0
      let k3 := dCdt st.active_vol st.total_inflow st.in_comps w3
      let w4 := (List.range k3.length).map fun i =>
        st.mo_comps.getD i 0 + step_sol * k3.getD i 0
      let k4 := dCdt st.active_vol st.total_inflow st.in_comps w4
      let new_comps := (List.range st.sludge_comps.length).map fun i =>
        st.sludge_comps.getD i 0
          + (k1.getD i 0 + 2 * k2.getD i 0 + 2 * k3.getD i 0 + k4.getD i 0)
            / 6 * step_sol
      some ({ st with sludge_comps := new_comps, mo_comps := new_comps,
                      so_comps := new_comps },
            [⟨st.active_vol, st.total_inflow, st.in_comps, st.mo_comps⟩,
             ⟨st.active_vol, st.total_inflow, st.in_comps, w2⟩,
             ⟨st.active_vol, st.total_inflow, st.in_comps, w3⟩,
             ⟨st.active_vol, st.total_inflow, st.in_comps, w4⟩])
  | _, _ => none

/-- `asm_reactor._runge_kutta_4` without the instrumentation. -/
def rk4 (dCdt : RateFn) (first_index_part : ℕ) (f_s f_p : ℚ)
    (st : ReactorState) : Option ReactorState :=
  (rk4Aux dCdt first_index_part f_s f_p st).map Prod.fst

/-- `asm_reactor.integrate` (`bio.py` lines 128-146): dispatches on the
method-name string, `Euler` to `_euler`, anything else to `_runge_kutta_4`. -/
def integrate (dCdt : RateFn) (first_index_particulate : ℕ)
    (method_name : String) (f_s f_p : ℚ) (st : ReactorState) :
    Option ReactorState :=
  if method_name = "Euler" then
    euler dCdt first_index_particulate f_s f_p st
  else
    rk4 dCdt first_index_particulate f_s f_p st

/-- `asm_reactor.set_active_vol` (`bio.py` lines 99-105): accepts only a
positive volume, otherwise prints an error and changes nothing. -/
def set_active_vol (st : ReactorState) (vol : ℚ) : ReactorState :=
  if 0 < vol then { st with active_vol := vol } else st

/-- Modelled from the spec: `ASM_1.update` (the kinetics model's
environmental-condition updater, outside this module) stores the new
temperature and dissolved oxygen in the kinetics model. -/
def sludge_update (st : ReactorState) (Temperature DO : ℚ) : ReactorState :=
  { st with sludge_temp := Temperature, sludge_do := DO }

/-- `asm_reactor.set_model_condition` (`bio.py` lines 112-117): forwards to
`_sludge.update` when `Temperature >= 4 and DO >= 0`, otherwise prints an
error and changes nothing. -/
def set_model_condition (st : ReactorState) (Temperature DO : ℚ) :
    ReactorState :=
  if 4 ≤ Temperature ∧ 0 ≤ DO then sludge_update st Temperature DO else st

/-- Modelled from the spec: `pipe._branch_flow_helper` (outside this module)
resolves/splits outgoing flow fractions only; it leaves the component
vectors and the fields modelled here unchanged. -/
def branch_flow_helper (st : ReactorState) : ReactorState := st

/-- Modelled from the spec: `pipe._discharge_main_outlet` (outside this
module) hands the main-outlet vector to the downstream unit; it does not
modify the reactor's own state modelled here. -/
def discharge_main_outlet (st : ReactorState) : ReactorState := st

/-- `asm_reactor.discharge` (`bio.py` lines 71-80): resolve flow, snapshot
`_mo_comps` into both `_prev_mo_comps` and `_prev_so_comps`, integrate with
`(7, 'Euler', 0.05, 2.0)`, copy the result to `_so_comps`, discharge. -/
def discharge (dCdt : RateFn) (st : ReactorState) : Option ReactorState :=
  let st1 := branch_flow_helper st
  let st2 := { st1 with prev_mo_comps := st1.mo_comps,
                        prev_so_comps := st1.mo_comps }
  match integrate dCdt 7 "Euler" (5/100) 2 st2 with
  | some st3 => some (discharge_main_outlet { st3 with so_comps := st3.mo_comps })
  | none => none

/-! Concrete inputs used by the end-to-end and degenerate-case theorems. -/

/-- The 2-component reactor state of the end-to-end scenario:
mixed liquor `[10, 5]`, kinetics-model components kept in sync (CSTR). -/
def stC1 : ReactorState :=
  { active_vol := 1, total_inflow := 1, in_comps := [0, 0],
    mo_comps := [10, 5], so_comps := [10, 5],
    prev_mo_comps := [0, 0], prev_so_comps := [0, 0],
    sludge_comps := [10, 5], sludge_temp := 20, sludge_do := 2 }

/-- A rate function constantly returning `[-2, -1]`. -/
def dCdtC1 : RateFn := fun _ _ _ _ => [-2, -1]

/-- A rate function constantly returning the all-zero 2-vector. -/
def dCdtZero : RateFn := fun _ _ _ _ => [0, 0]

/-- The synthetic linear-decay rate law `rate[i] = -k_i * current[i]`. -/
def linDecay (k : CVec) : RateFn := fun _ _ _ cur =>
  (List.range cur.length).map (fun i => -(k.getD i 0 * cur.getD i 0))

/-- Decay constants: soluble component decays at rate 1, particulate at 100. -/
def kC5 : CVec := [1, 100]

/-- State for the non-negativity counterexample: both concentrations 1. -/
def stC5 : ReactorState :=
  { active_vol := 1, total_inflow := 1, in_comps := [0, 0],
    mo_comps := [1, 1], so_comps := [1, 1],
    prev_mo_comps := [0, 0], prev_so_comps := [0, 0],
    sludge_comps := [1, 1], sludge_temp := 20, sludge_do := 2 }

end PooPyLab

namespace PooPyLab

/-- C1: Euler end-to-end scenario: state `[10, 5]`, rate `[-2, -1]`,
partition boundary 1, soluble fraction `1/10`: the soluble step bound is
`10/2 = 5`, the scaled step is `1/2`, and the post-integration state is
`[9, 9/2]` (the soluble step applied uniformly to both components). -/
theorem euler_end_to_end_scenario :
    eulerMaxStepSol dCdtC1 1 stC1 = some 5 ∧
    eulerStepSol dCdtC1 1 (1/10) stC1 = some (1/2) ∧
    (euler dCdtC1 1 (1/10) 2 stC1).map ReactorState.sludge_comps
      = some [9, 9/2] ∧
    (euler dCdtC1 1 (1/10) 2 stC1).map ReactorState.mo_comps
      = some [9, 9/2] := by
  have hs : uppersSol stC1.sludge_comps
      (dCdtC1 stC1.active_vol stC1.total_inflow stC1.in_comps stC1.mo_comps) 1
      = [5] := by
    norm_num [stC1, dCdtC1, uppersSol, List.range_succ]
  have hp : uppersPart stC1.sludge_comps
      (dCdtC1 stC1.active_vol stC1.total_inflow stC1.in_comps stC1.mo_comps) 1
      = [5] := by
    norm_num [stC1, dCdtC1, uppersPart, List.range']
  have hms : pyMin [(5 : ℚ)] = some 5 := rfl
  refine ⟨?_, ?_, ?_, ?_⟩
  · rw [eulerMaxStepSol, hs, hms]
  · rw [eulerStepSol, eulerMaxStepSol, hs, hms]; norm_num
  · rw [euler, hs, hp, hms]
    simp [stC1, dCdtC1, List.range_succ]
    norm_num
  · rw [euler, hs, hp, hms]
    simp [stC1, dCdtC1, List.range_succ]
    norm_num

/-- C3 (code bug exhibited): with an all-zero rate vector both partitions
have no candidate bound, `min` is taken of an empty sequence, and both
integrators fail (`none`) instead of falling back and leaving the state
unchanged. -/
theorem zero_rate_integrators_fail :
    euler dCdtZero 1 (1/10) 2 stC1 = none ∧
    rk4 dCdtZero 1 (1/10) 2 stC1 = none := by
  have hs : uppersSol stC1.sludge_comps
      (dCdtZero stC1.active_vol stC1.total_inflow stC1.in_comps stC1.mo_comps) 1
      = [] := by
    simp [stC1, dCdtZero, uppersSol, List.range_succ]
  constructor
  · rw [euler, hs]; rfl
  · rw [rk4, rk4Aux, hs]; rfl

/-- C4 (code bug exhibited): on state `[10, 5]`, rate `[-2, -1]`, boundary 1,
`f_s = 1/20`, `f_p = 2`, the particulate bound is `5`; `_runge_kutta_4`
scales it by `f_p` (giving `10`) but `_euler` scales it by `f_s`
(giving `1/4`), contradicting the claim that both use `f_p`. -/
theorem euler_particulate_step_uses_fs :
    eulerStepPart dCdtC1 1 (1/20) 2 stC1 = some (1/4) ∧
    rk4StepPart dCdtC1 1 (1/20) 2 stC1 = some 10 ∧
    eulerStepPart dCdtC1 1 (1/20) 2 stC1 ≠ some (2 * 5) := by
  have hp : uppersPart stC1.sludge_comps
      (dCdtC1 stC1.active_vol stC1.total_inflow stC1.in_comps stC1.mo_comps) 1
      = [5] := by
    norm_num [stC1, dCdtC1, uppersPart, List.range']
  have hms : pyMin [(5 : ℚ)] = some 5 := rfl
  have h1 : eulerStepPart dCdtC1 1 (1/20) 2 stC1 = some (1/4) := by
    rw [eulerStepPart, hp, hms]; norm_num
  refine ⟨h1, ?_, ?_⟩
  · rw [rk4StepPart, hp, hms]; norm_num
  · rw [h1]
    simp only [ne_eq, Option.some.injEq]
    norm_num

/-- Python `min` returns a member of its argument. -/
lemma pyMin_mem {l : List ℚ} {m : ℚ} (h : pyMin l = some m) : m ∈ l :=
  List.min?_mem (fun a b => min_choice a b) h

/-- Python `min` is a lower bound of its argument. -/
lemma pyMin_le {l : List ℚ} {m : ℚ} (h : pyMin l = some m) {x : ℚ}
    (hx : x ∈ l) : m ≤ x :=
  (List.le_min?_iff (fun _ _ _ => le_min_iff) h).1 le_rfl x hx

/-- Python `min` succeeds on every nonempty list. -/
lemma pyMin_of_ne_nil {l : List ℚ} (h : l ≠ []) : ∃ m, pyMin l = some m := by
  cases hl : l.min? with
  | none => exact absurd (List.min?_eq_none_iff.1 hl) h
  | some m => exact ⟨m, hl⟩

/-- Membership in the soluble candidate list. -/
lemma mem_uppersSol {comps rate : CVec} {fip : ℕ} {x : ℚ} :
    x ∈ uppersSol comps rate fip ↔
      ∃ i < fip, rate.getD i 0 ≠ 0 ∧ x = comps.getD i 0 / |rate.getD i 0| := by
  simp only [uppersSol, List.mem_map, List.mem_filter, List.mem_range,
    decide_eq_true_eq]
  constructor
  · rintro ⟨i, ⟨hi, hr⟩, rfl⟩
    exact ⟨i, hi, hr, rfl⟩
  · rintro ⟨i, hi, hr, rfl⟩
    exact ⟨i, ⟨hi, hr⟩, rfl⟩

/-- Membership in the particulate candidate list. -/
lemma mem_uppersPart {comps rate : CVec} {fip : ℕ} {x : ℚ} :
    x ∈ uppersPart comps rate fip ↔
      ∃ j, fip ≤ j ∧ j < rate.length ∧ rate.getD j 0 ≠ 0 ∧
        x = comps.getD j 0 / |rate.getD j 0| := by
  simp only [uppersPart, List.mem_map, List.mem_filter, List.mem_range',
    decide_eq_true_eq]
  constructor
  · rintro ⟨j, ⟨⟨i, hi, rfl⟩, hr⟩, rfl⟩
    exact ⟨fip + 1 * i, by omega, by omega, hr, rfl⟩
  · rintro ⟨j, hj1, hj2, hr, rfl⟩
    exact ⟨j, ⟨⟨j - fip, by omega, by omega⟩, hr⟩, rfl⟩

/-- C5 (counterexample): under the linear decay `rate = [-1*c0, -100*c1]`
with boundary 1 and soluble fraction `1/20`, the chosen step is `1/20`
(derived from the soluble component only), and one Euler step drives the
particulate component from `1` to `-4 < 0`. -/
theorem euler_step_drives_component_negative :
    (euler (linDecay kC5) 1 (1/20) 2 stC5).map ReactorState.sludge_comps
      = some [19/20, -4] ∧
    ¬ (0 : ℚ) ≤ -4 := by
  have hs : uppersSol stC5.sludge_comps
      (linDecay kC5 stC5.active_vol stC5.total_inflow stC5.in_comps
        stC5.mo_comps) 1 = [1] := by
    norm_num [stC5, linDecay, kC5, uppersSol, List.range_succ]
  have hp : uppersPart stC5.sludge_comps
      (linDecay kC5 stC5.active_vol stC5.total_inflow stC5.in_comps
        stC5.mo_comps) 1 = [1/100] := by
    norm_num [stC5, linDecay, kC5, uppersPart, List.range', List.range_succ]
  have hms : pyMin [(1 : ℚ)] = some 1 := rfl
  have hmp : pyMin [(1/100 : ℚ)] = some (1/100) := rfl
  constructor
  · rw [euler, hs, hp, hms, hmp]
    simp [stC5, linDecay, kC5, List.range_succ]
    norm_num
  · norm_num

/-- `_euler` leaves the "previous round" snapshots untouched. -/
lemma euler_preserves_prev (dCdt : RateFn) (fip : ℕ) (f_s f_p : ℚ)
    (st st' : ReactorState) (h : euler dCdt fip f_s f_p st = some st') :
    st'.prev_mo_comps = st.prev_mo_comps ∧
    st'.prev_so_comps = st.prev_so_comps := by
  rw [euler] at h
  split at h
  · injection h with h'
    subst h'
    exact ⟨rfl, rfl⟩
  · exact absurd h (by simp)

/-- `_runge_kutta_4` leaves the "previous round" snapshots untouched. -/
lemma rk4_preserves_prev (dCdt : RateFn) (fip : ℕ) (f_s f_p : ℚ)
    (st st' : ReactorState) (h : rk4 dCdt fip f_s f_p st = some st') :
    st'.prev_mo_comps = st.prev_mo_comps ∧
    st'.prev_so_comps = st.prev_so_comps := by
  rw [rk4, rk4Aux] at h
  split at h
  · injection h with h'
    subst h'
    exact ⟨rfl, rfl⟩
  · exact absurd h (by simp)

/-- After a successful `_euler`, both outlet views equal `_sludge._comps`. -/
lemma euler_publishes (dCdt : RateFn) (fip : ℕ) (f_s f_p : ℚ)
    (st st' : ReactorState) (h : euler dCdt fip f_s f_p st = some st') :
    st'.mo_comps = st'.sludge_comps ∧ st'.so_comps = st'.sludge_comps := by
  rw [euler] at h
  split at h
  · injection h with h'
    subst h'
    exact ⟨rfl, rfl⟩
  · exact absurd h (by simp)

/-- After a successful `_runge_kutta_4`, both outlet views equal
`_sludge._comps`. -/
lemma rk4_publishes (dCdt : RateFn) (fip : ℕ) (f_s f_p : ℚ)
    (st st' : ReactorState) (h : rk4 dCdt fip f_s f_p st = some st') :
    st'.mo_comps = st'.sludge_comps ∧ st'.so_comps = st'.sludge_comps := by
  rw [rk4, rk4Aux] at h
  split at h
  · injection h with h'
    subst h'
    exact ⟨rfl, rfl⟩
  · exact absurd h (by simp)

/-- C7: `set_active_vol` accepts only a positive volume and otherwise (the
error being only printed, not thrown) leaves the whole reactor state
unchanged. -/
theorem set_active_vol_guard (st : ReactorState) (v : ℚ) :
    (0 < v → set_active_vol st v = { st with active_vol := v }) ∧
    (¬ 0 < v → set_active_vol st v = st) := by
  constructor <;> intro h <;> simp [set_active_vol, h]

/-- C7 witness at volume `5` (accepted) and `-1` (rejected). -/
theorem set_active_vol_guard_spot :
    (set_active_vol stC1 5).active_vol = 5 ∧
    set_active_vol stC1 (-1) = stC1 :=
  ⟨by rw [(set_active_vol_guard stC1 5).1 (by norm_num)],
   (set_active_vol_guard stC1 (-1)).2 (by norm_num)⟩

/-- C8: `set_model_condition` rejects `Temperature < 4` or `DO < 0` (error
printed, nothing thrown, kinetics conditions unchanged) and otherwise
forwards both values to the kinetics model's condition updater. -/
theorem set_model_condition_guard (st : ReactorState) (t d : ℚ) :
    ((t < 4 ∨ d < 0) → set_model_condition st t d = st) ∧
    (4 ≤ t → 0 ≤ d → set_model_condition st t d = sludge_update st t d) := by
  constructor
  · intro h
    rw [set_model_condition, if_neg]
    rintro ⟨h1, h2⟩
    rcases h with h | h <;> linarith
  · intro h1 h2
    rw [set_model_condition, if_pos ⟨h1, h2⟩]

/-- C8 witness: `(3, 1)` is rejected, `(20, 2)` is forwarded. -/
theorem set_model_condition_guard_spot :
    set_model_condition stC1 3 1 = stC1 ∧
    set_model_condition stC1 20 2 = sludge_update stC1 20 2 :=
  ⟨(set_model_condition_guard stC1 3 1).1 (Or.inl (by norm_num)),
   (set_model_condition_guard stC1 20 2).2 (by norm_num) (by norm_num)⟩

/-- C9: `integrate` dispatches on the method-name string alone: `"Euler"`
selects `_euler`, and every other string silently selects
`_runge_kutta_4`. -/
theorem integrate_dispatch (dCdt : RateFn) (fip : ℕ) (f_s f_p : ℚ)
    (st : ReactorState) :
    integrate dCdt fip "Euler" f_s f_p st = euler dCdt fip f_s f_p st ∧
    ∀ name : String, name ≠ "Euler" →
      integrate dCdt fip name f_s f_p st = rk4 dCdt fip f_s f_p st := by
  constructor
  · rw [integrate, if_pos rfl]
  · intro name h
    rw [integrate, if_neg h]

/-- C9 witness: the misspelled `"euler"` silently selects RK4. -/
theorem integrate_dispatch_spot :
    integrate dCdtC1 1 "euler" (1/10) 2 stC1 = rk4 dCdtC1 1 (1/10) 2 stC1 ∧
    integrate dCdtC1 1 "Euler" (1/10) 2 stC1 = euler dCdtC1 1 (1/10) 2 stC1 :=
  ⟨(integrate_dispatch dCdtC1 1 (1/10) 2 stC1).2 "euler" (by decide),
   (integrate_dispatch dCdtC1 1 (1/10) 2 stC1).1⟩

/-- The state produced by the Euler end-to-end scenario input. -/
def stC1post : ReactorState :=
  { active_vol := 1, total_inflow := 1, in_comps := [0, 0],
    mo_comps := [9, 9/2], so_comps := [9, 9/2],
    prev_mo_comps := [0, 0], prev_so_comps := [0, 0],
    sludge_comps := [9, 9/2], sludge_temp := 20, sludge_do := 2 }

/-- Evaluation of `_euler` on the end-to-end scenario input. -/
lemma eulerC1_eval : euler dCdtC1 1 (1/10) 2 stC1 = some stC1post := by
  have hs : uppersSol stC1.sludge_comps
      (dCdtC1 stC1.active_vol stC1.total_inflow stC1.in_comps stC1.mo_comps) 1
      = [5] := by
    norm_num [stC1, dCdtC1, uppersSol, List.range_succ]
  have hp : uppersPart stC1.sludge_comps
      (dCdtC1 stC1.active_vol stC1.total_inflow stC1.in_comps stC1.mo_comps) 1
      = [5] := by
    norm_num [stC1, dCdtC1, uppersPart, List.range']
  have hms : pyMin [(5 : ℚ)] = some 5 := rfl
  rw [euler, hs, hp, hms]
  simp only [Option.some.injEq]
  norm_num [stC1, stC1post, dCdtC1, List.range_succ, ReactorState.mk.injEq]

/-- An 8-component reactor state whose secondary outlet (`[2,...]`) differs
from its mixed outlet (`[1,...]`), as after `assign_initial_guess`. -/
def stC6 : ReactorState :=
  { active_vol := 1, total_inflow := 1,
    in_comps := [0, 0, 0, 0, 0, 0, 0, 0],
    mo_comps := [1, 1, 1, 1, 1, 1, 1, 1],
    so_comps := [2, 2, 2, 2, 2, 2, 2, 2],
    prev_mo_comps := [0, 0, 0, 0, 0, 0, 0, 0],
    prev_so_comps := [0, 0, 0, 0, 0, 0, 0, 0],
    sludge_comps := [1, 1, 1, 1, 1, 1, 1, 1],
    sludge_temp := 20, sludge_do := 2 }

/-- A rate function constantly returning the all-`-1` 8-vector. -/
def dCdtC6 : RateFn := fun _ _ _ _ => [-1, -1, -1, -1, -1, -1, -1, -1]

/-- The state after one `discharge` cycle from `stC6` under `dCdtC6`. -/
def stC6post : ReactorState :=
  { active_vol := 1, total_inflow := 1,
    in_comps := [0, 0, 0, 0, 0, 0, 0, 0],
    mo_comps := [19/20, 19/20, 19/20, 19/20, 19/20, 19/20, 19/20, 19/20],
    so_comps := [19/20, 19/20, 19/20, 19/20, 19/20, 19/20, 19/20, 19/20],
    prev_mo_comps := [1, 1, 1, 1, 1, 1, 1, 1],
    prev_so_comps := [1, 1, 1, 1, 1, 1, 1, 1],
    sludge_comps := [19/20, 19/20, 19/20, 19/20, 19/20, 19/20, 19/20, 19/20],
    sludge_temp := 20, sludge_do := 2 }

/-- Evaluation of one full `discharge` cycle from `stC6`. -/
lemma dischargeC6_eval : discharge dCdtC6 stC6 = some stC6post := by
  have he : euler dCdtC6 7 (5/100) 2
      { stC6 with prev_mo_comps := stC6.mo_comps,
                  prev_so_comps := stC6.mo_comps } = some stC6post := by
    have hs : uppersSol stC6.sludge_comps
        (dCdtC6 stC6.active_vol stC6.total_inflow stC6.in_comps stC6.mo_comps)
        7 = [1, 1, 1, 1, 1, 1, 1] := by
      norm_num [stC6, dCdtC6, uppersSol, List.range_succ]
    have hp : uppersPart stC6.sludge_comps
        (dCdtC6 stC6.active_vol stC6.total_inflow stC6.in_comps stC6.mo_comps)
        7 = [1] := by
      norm_num [stC6, dCdtC6, uppersPart, List.range']
    have hms : pyMin [(1 : ℚ), 1, 1, 1, 1, 1, 1] = some 1 := by
      norm_num [pyMin, List.min?_cons', min_self]
    have hmp : pyMin [(1 : ℚ)] = some 1 := rfl
    calc euler dCdtC6 7 (5/100) 2
          { stC6 with prev_mo_comps := stC6.mo_comps,
                      prev_so_comps := stC6.mo_comps }
        = match pyMin (uppersSol stC6.sludge_comps
              (dCdtC6 stC6.active_vol stC6.total_inflow stC6.in_comps
                stC6.mo_comps) 7),
            pyMin (uppersPart stC6.sludge_comps
              (dCdtC6 stC6.active_vol stC6.total_inflow stC6.in_comps
                stC6.mo_comps) 7) with
          | some max_step_sol, some _max_step_part =>
              some { stC6 with
                prev_mo_comps := stC6.mo_comps,
                prev_so_comps := stC6.mo_comps,
                sludge_comps := (List.range stC6.sludge_comps.length).map
                  fun i =>
                    if i < stC6.mo_comps.length then
                      stC6.sludge_comps.getD i 0
                        + (dCdtC6 stC6.active_vol stC6.total_inflow
                            stC6.in_comps stC6.mo_comps).getD i 0
                          * ((5/100) * max_step_sol)
                    else stC6.sludge_comps.getD i 0,
                mo_comps := (List.range stC6.sludge_comps.length).map
                  fun i =>
                    if i < stC6.mo_comps.length then
                      stC6.sludge_comps.getD i 0
                        + (dCdtC6 stC6.active_vol stC6.total_inflow
                            stC6.in_comps stC6.mo_comps).getD i 0
                          * ((5/100) * max_step_sol)
                    else stC6.sludge_comps.getD i 0,
                so_comps := (List.range stC6.sludge_comps.length).map
                  fun i =>
                    if i < stC6.mo_comps.length then
                      stC6.sludge_comps.getD i 0
                        + (dCdtC6 stC6.active_vol stC6.total_inflow
                            stC6.in_comps stC6.mo_comps).getD i 0
                          * ((5/100) * max_step_sol)
                    else stC6.sludge_comps.getD i 0 }
          | _, _ => none := rfl
      _ = some stC6post := by
          rw [hs, hp, hms, hmp]
          simp only [Option.some.injEq]
          norm_num [stC6, stC6post, dCdtC6, List.range_succ,
            ReactorState.mk.injEq]
  calc discharge dCdtC6 stC6
      = (match euler dCdtC6 7 (5/100) 2
            { stC6 with prev_mo_comps := stC6.mo_comps,
                        prev_so_comps := stC6.mo_comps } with
         | some st3 =>
             some (discharge_main_outlet { st3 with so_comps := st3.mo_comps })
         | none => none) := rfl
    _ = some stC6post := by
        rw [he]
        rfl

/-- C6 (counterexample): after one `discharge` cycle from `stC6`, the
"previous secondary outlet" snapshot holds the pre-cycle mixed-outlet
vector, not the pre-cycle secondary-outlet vector. -/
theorem discharge_snapshot_not_secondary :
    (discharge dCdtC6 stC6).map ReactorState.prev_so_comps
      = some stC6.mo_comps ∧
    (discharge dCdtC6 stC6).map ReactorState.prev_so_comps
      ≠ some stC6.so_comps := by
  rw [dischargeC6_eval]
  refine ⟨rfl, ?_⟩
  simp only [Option.map_some', ne_eq, Option.some.injEq]
  norm_num [stC6, stC6post]

/-- C6 (amended): on every successful discharge cycle, both "previous"
snapshots receive the pre-cycle mixed-outlet vector (so the secondary
snapshot equals the secondary outlet's own pre-cycle value only when the
two outlet views already coincide). -/
theorem discharge_snapshots_mixed_outlet (dCdt : RateFn)
    (st st' : ReactorState) (h : discharge dCdt st = some st') :
    st'.prev_mo_comps = st.mo_comps ∧ st'.prev_so_comps = st.mo_comps := by
  rw [discharge, branch_flow_helper, integrate, if_pos rfl] at h
  split at h
  case _ st3 heq =>
    injection h with h'
    subst h'
    have hp := euler_preserves_prev dCdt 7 (5/100) 2
      { st with prev_mo_comps := st.mo_comps, prev_so_comps := st.mo_comps }
      st3 heq
    exact ⟨hp.1, hp.2⟩
  case _ => exact absurd h (by simp)

/-- C6 witness: the amended snapshot property at the concrete cycle
`discharge dCdtC6 stC6`. -/
theorem discharge_snapshots_mixed_outlet_spot :
    stC6post.prev_mo_comps = stC6.mo_comps ∧
    stC6post.prev_so_comps = stC6.mo_comps :=
  discharge_snapshots_mixed_outlet dCdtC6 stC6 stC6post dischargeC6_eval

/-- C10: every successful integrator call (Euler, RK4, or via `integrate`)
re-establishes the CSTR invariant: both outlet views equal the updated
kinetics-model component vector. -/
theorem integrator_restores_cstr_invariant (dCdt : RateFn) (fip : ℕ)
    (f_s f_p : ℚ) (name : String) (st st' : ReactorState)
    (h : euler dCdt fip f_s f_p st = some st' ∨
         rk4 dCdt fip f_s f_p st = some st' ∨
         integrate dCdt fip name f_s f_p st = some st') :
    st'.mo_comps = st'.sludge_comps ∧ st'.so_comps = st'.sludge_comps := by
  rcases h with h | h | h
  · exact euler_publishes dCdt fip f_s f_p st st' h
  · exact rk4_publishes dCdt fip f_s f_p st st' h
  · rw [integrate] at h
    by_cases hn : name = "Euler"
    · rw [if_pos hn] at h
      exact euler_publishes dCdt fip f_s f_p st st' h
    · rw [if_neg hn] at h
      exact rk4_publishes dCdt fip f_s f_p st st' h

/-- Componentwise vector sum, following the claim's stage formulas. -/
def vAdd (xs ys : CVec) : CVec := List.zipWith (fun a b => a + b) xs ys

/-- Scalar multiple of a vector, following the claim's stage formulas. -/
def vSmul (c : ℚ) (xs : CVec) : CVec := xs.map (fun a => c * a)

/-- The Python list comprehension `[xs[i] + c*ys[i] for i in range(len(ys))]`
is the componentwise `xs + c • ys` when the lengths agree. -/
lemma range_map_eq_vAdd_vSmul (xs ys : CVec) (c : ℚ)
    (h : xs.length = ys.length) :
    (List.range ys.length).map (fun i => xs.getD i 0 + c * ys.getD i 0)
      = vAdd xs (vSmul c ys) := by
  apply List.ext_getElem
  · simp [vAdd, vSmul, h]
  · intro i h1 h2
    have hy : i < ys.length := by simpa using h1
    have hx : i < xs.length := by omega
    simp only [List.getElem_map, List.getElem_range, vAdd, vSmul,
      List.getElem_zipWith]
    rw [List.getD_eq_getElem _ _ hx, List.getD_eq_getElem _ _ hy]

/-- The RK4 update comprehension of `bio.py` lines 235-238 equals the
textbook form `xs + (s/6) • (k1 + 2·k2 + 2·k3 + k4)`. -/
lemma range_map_eq_rk4_update (xs k1 k2 k3 k4 : CVec) (s : ℚ)
    (h1 : k1.length = xs.length) (h2 : k2.length = xs.length)
    (h3 : k3.length = xs.length) (h4 : k4.length = xs.length) :
    (List.range xs.length).map (fun i =>
        xs.getD i 0 + (k1.getD i 0 + 2 * k2.getD i 0 + 2 * k3.getD i 0
          + k4.getD i 0) / 6 * s)
      = vAdd xs (vSmul (s / 6) (vAdd (vAdd k1 (vSmul 2 k2))
          (vAdd (vSmul 2 k3) k4))) := by
  apply List.ext_getElem
  · simp [vAdd, vSmul, h1, h2, h3, h4]
  · intro i hi1 hi2
    have hx : i < xs.length := by simpa using hi1
    simp only [List.getElem_map, List.getElem_range, vAdd, vSmul,
      List.getElem_zipWith]
    rw [List.getD_eq_getElem _ _ hx,
      List.getD_eq_getElem _ _ (show i < k1.length by omega),
      List.getD_eq_getElem _ _ (show i < k2.length by omega),
      List.getD_eq_getElem _ _ (show i < k3.length by omega),
      List.getD_eq_getElem _ _ (show i < k4.length by omega)]
    ring

/-- C2: every completed `_runge_kutta_4` call evaluates the rate function
exactly four times (the recorded trace has exactly these four entries, all
with the same volume and total inflow), the four stages are the classic
`k1 = rate(state)`, `k2 = rate(state + (step/2)·k1)`,
`k3 = rate(state + (step/2)·k2)`, `k4 = rate(state + step·k3)`, and the
next state is `state + (step/6)·(k1 + 2k2 + 2k3 + k4)` componentwise,
where the step is the soluble bound scaled by `f_s`. -/
theorem rk4_four_stage_structure (dCdt : RateFn) (fip : ℕ) (f_s f_p : ℚ)
    (N : ℕ) (st : ReactorState)
    (hsm : st.sludge_comps = st.mo_comps)
    (hN : st.mo_comps.length = N)
    (hdlen : ∀ c : CVec, c.length = N →
        (dCdt st.active_vol st.total_inflow st.in_comps c).length = N)
    (st' : ReactorState) (tr : List CallArgs)
    (hrun : rk4Aux dCdt fip f_s f_p st = some (st', tr)) :
    ∃ stepSol k1 k2 k3 k4 w2 w3 w4,
      k1 = dCdt st.active_vol st.total_inflow st.in_comps st.mo_comps ∧
      (∃ m, pyMin (uppersSol st.sludge_comps k1 fip) = some m ∧
        stepSol = f_s * m) ∧
      w2 = vAdd st.mo_comps (vSmul (stepSol / 2) k1) ∧
      k2 = dCdt st.active_vol st.total_inflow st.in_comps w2 ∧
      w3 = vAdd st.mo_comps (vSmul (stepSol / 2) k2) ∧
      k3 = dCdt st.active_vol st.total_inflow st.in_comps w3 ∧
      w4 = vAdd st.mo_comps (vSmul stepSol k3) ∧
      k4 = dCdt st.active_vol st.total_inflow st.in_comps w4 ∧
      tr = [⟨st.active_vol, st.total_inflow, st.in_comps, st.mo_comps⟩,
            ⟨st.active_vol, st.total_inflow, st.in_comps, w2⟩,
            ⟨st.active_vol, st.total_inflow, st.in_comps, w3⟩,
            ⟨st.active_vol, st.total_inflow, st.in_comps, w4⟩] ∧
      st'.sludge_comps =
        vAdd st.mo_comps (vSmul (stepSol / 6)
          (vAdd (vAdd k1 (vSmul 2 k2)) (vAdd (vSmul 2 k3) k4))) := by
  rw [rk4Aux] at hrun
  split at hrun
  next msol mpart hsol hpart =>
    injection hrun with hpair
    injection hpair with hst htr
    subst hst
    subst htr
    have hK1 : (dCdt st.active_vol st.total_inflow st.in_comps
        st.mo_comps).length = N := hdlen _ hN
    refine ⟨f_s * msol, _, _, _, _, _, _, _, rfl, ⟨msol, hsol, rfl⟩,
      range_map_eq_vAdd_vSmul _ _ _ (hN.trans hK1.symm), rfl,
      range_map_eq_vAdd_vSmul _ _ _ ?_, rfl,
      range_map_eq_vAdd_vSmul _ _ _ ?_, rfl, rfl, ?_⟩
    · rw [hN]
      symm
      apply hdlen
      simp only [List.length_map, List.length_range]
      exact hK1
    · rw [hN]
      symm
      apply hdlen
      simp only [List.length_map, List.length_range]
      apply hdlen
      simp only [List.length_map, List.length_range]
      exact hK1
    · dsimp only
      rw [hsm]
      refine range_map_eq_rk4_update _ _ _ _ _ _ ?_ ?_ ?_ ?_
      · exact hK1.trans hN.symm
      · refine Eq.trans ?_ hN.symm
        apply hdlen
        simp only [List.length_map, List.length_range]
        exact hK1
      · refine Eq.trans ?_ hN.symm
        apply hdlen
        simp only [List.length_map, List.length_range]
        apply hdlen
        simp only [List.length_map, List.length_range]
        exact hK1
      · refine Eq.trans ?_ hN.symm
        apply hdlen
        simp only [List.length_map, List.length_range]
        apply hdlen
        simp only [List.length_map, List.length_range]
        apply hdlen
        simp only [List.length_map, List.length_range]
        exact hK1
  next => exact absurd hrun (by simp)

/-- The trace of the four rate-function calls of the concrete RK4 run. -/
def trC2 : List CallArgs :=
  [⟨1, 1, [0, 0], [10, 5]⟩,
   ⟨1, 1, [0, 0], [19/2, 19/4]⟩,
   ⟨1, 1, [0, 0], [19/2, 19/4]⟩,
   ⟨1, 1, [0, 0], [9, 9/2]⟩]

/-- Evaluation of the instrumented RK4 on the scenario input. -/
lemma rk4C1_eval : rk4Aux dCdtC1 1 (1/10) 2 stC1 = some (stC1post, trC2) := by
  have hs : uppersSol stC1.sludge_comps
      (dCdtC1 stC1.active_vol stC1.total_inflow stC1.in_comps stC1.mo_comps) 1
      = [5] := by
    norm_num [stC1, dCdtC1, uppersSol, List.range_succ]
  have hp : uppersPart stC1.sludge_comps
      (dCdtC1 stC1.active_vol stC1.total_inflow stC1.in_comps stC1.mo_comps) 1
      = [5] := by
    norm_num [stC1, dCdtC1, uppersPart, List.range']
  have hms : pyMin [(5 : ℚ)] = some 5 := rfl
  rw [rk4Aux, hs, hp, hms]
  simp only [Option.some.injEq, Prod.mk.injEq]
  norm_num [stC1, stC1post, trC2, dCdtC1, List.range_succ,
    ReactorState.mk.injEq, CallArgs.mk.injEq]

/-- C2 witness: the four-stage structure at the concrete RK4 run on the
scenario input. -/
theorem rk4_four_stage_structure_spot :
    ∃ stepSol k1 k2 k3 k4 w2 w3 w4,
      k1 = dCdtC1 stC1.active_vol stC1.total_inflow stC1.in_comps
        stC1.mo_comps ∧
      (∃ m, pyMin (uppersSol stC1.sludge_comps k1 1) = some m ∧
        stepSol = (1/10) * m) ∧
      w2 = vAdd stC1.mo_comps (vSmul (stepSol / 2) k1) ∧
      k2 = dCdtC1 stC1.active_vol stC1.total_inflow stC1.in_comps w2 ∧
      w3 = vAdd stC1.mo_comps (vSmul (stepSol / 2) k2) ∧
      k3 = dCdtC1 stC1.active_vol stC1.total_inflow stC1.in_comps w3 ∧
      w4 = vAdd stC1.mo_comps (vSmul stepSol k3) ∧
      k4 = dCdtC1 stC1.active_vol stC1.total_inflow stC1.in_comps w4 ∧
      trC2 = [⟨stC1.active_vol, stC1.total_inflow, stC1.in_comps,
                stC1.mo_comps⟩,
              ⟨stC1.active_vol, stC1.total_inflow, stC1.in_comps, w2⟩,
              ⟨stC1.active_vol, stC1.total_inflow, stC1.in_comps, w3⟩,
              ⟨stC1.active_vol, stC1.total_inflow, stC1.in_comps, w4⟩] ∧
      stC1post.sludge_comps =
        vAdd stC1.mo_comps (vSmul (stepSol / 6)
          (vAdd (vAdd k1 (vSmul 2 k2)) (vAdd (vSmul 2 k3) k4))) :=
  rk4_four_stage_structure dCdtC1 1 (1/10) 2 2 stC1 rfl rfl
    (fun _ _ => rfl) stC1post trC2 rk4C1_eval

/-- `getD` of a Python comprehension over `range n`, inside the range. -/
lemma getD_range_map (f : ℕ → ℚ) {n i : ℕ} (h : i < n) :
    ((List.range n).map f).getD i 0 = f i := by
  have hl : i < ((List.range n).map f).length := by simpa using h
  rw [List.getD_eq_getElem _ _ hl, List.getElem_map, List.getElem_range]

/-- C5 (amended): for the linear decay law `rate[i] = -k_i·current[i]` with
all `k_i > 0` and all current concentrations positive, `_euler` completes,
and the chosen step keeps every SOLUBLE component (index below the
partition boundary) nonnegative whenever `0 ≤ f_s ≤ 1`; particulate
components are not protected, since the soluble-derived step is applied to
them uniformly (see the counterexample). -/
theorem euler_linear_decay_soluble_nonneg (k : CVec) (fip N : ℕ)
    (f_s f_p : ℚ) (st : ReactorState)
    (hsm : st.sludge_comps = st.mo_comps)
    (hN : st.mo_comps.length = N)
    (hfip0 : 0 < fip) (hfipN : fip < N)
    (hk : ∀ i, i < N → 0 < k.getD i 0)
    (hc : ∀ i, i < N → 0 < st.mo_comps.getD i 0)
    (hfs0 : 0 ≤ f_s) (hfs1 : f_s ≤ 1) :
    (∃ st', euler (linDecay k) fip f_s f_p st = some st') ∧
    (∀ st', euler (linDecay k) fip f_s f_p st = some st' →
      ∀ i, i < fip → 0 ≤ st'.sludge_comps.getD i 0) := by
  have hrate : ∀ j, j < N → (linDecay k st.active_vol st.total_inflow
      st.in_comps st.mo_comps).getD j 0
        = -(k.getD j 0 * st.mo_comps.getD j 0) := by
    intro j hj
    simp only [linDecay]
    exact getD_range_map _ (by rw [hN]; exact hj)
  have hrne : ∀ j, j < N → (linDecay k st.active_vol st.total_inflow
      st.in_comps st.mo_comps).getD j 0 ≠ 0 := by
    intro j hj
    rw [hrate j hj]
    exact neg_ne_zero.mpr (ne_of_gt (mul_pos (hk j hj) (hc j hj)))
  have hlenR : (linDecay k st.active_vol st.total_inflow st.in_comps
      st.mo_comps).length = N := by
    simp [linDecay, hN]
  obtain ⟨msol, hmsol⟩ := pyMin_of_ne_nil (List.ne_nil_of_mem
    (mem_uppersSol.2 ⟨0, hfip0, hrne 0 (by omega), rfl⟩)
    : uppersSol st.sludge_comps (linDecay k st.active_vol st.total_inflow
        st.in_comps st.mo_comps) fip ≠ [])
  obtain ⟨mpart, hmpart⟩ := pyMin_of_ne_nil (List.ne_nil_of_mem
    (mem_uppersPart.2 ⟨fip, le_refl fip, by rw [hlenR]; exact hfipN,
      hrne fip hfipN, rfl⟩)
    : uppersPart st.sludge_comps (linDecay k st.active_vol st.total_inflow
        st.in_comps st.mo_comps) fip ≠ [])
  constructor
  · rw [euler, hmsol, hmpart]
    exact ⟨_, rfl⟩
  · intro st' hst' i hifip
    have hiN : i < N := lt_trans hifip hfipN
    rw [euler] at hst'
    split at hst'
    next msol2 mpart2 hsol2 hpart2 =>
      injection hst' with hrec
      subst hrec
      dsimp only
      have hlen_i : i < st.sludge_comps.length := by
        rw [hsm, hN]
        exact hiN
      rw [getD_range_map _ hlen_i]
      have hi_mo : i < st.mo_comps.length := by
        rw [hN]
        exact hiN
      rw [if_pos hi_mo, hsm, hrate i hiN]
      obtain ⟨j, hjfip, hjne, hjeq⟩ := mem_uppersSol.1 (pyMin_mem hsol2)
      have hjN : j < N := lt_trans hjfip hfipN
      have hm0 : 0 < msol2 := by
        rw [hjeq, hsm]
        exact div_pos (hc j hjN) (abs_pos.mpr hjne)
      have hle := pyMin_le hsol2
        (mem_uppersSol.2 ⟨i, hifip, hrne i hiN, rfl⟩)
      rw [hsm, hrate i hiN, abs_neg,
        abs_of_pos (mul_pos (hk i hiN) (hc i hiN))] at hle
      have hA : msol2 * (k.getD i 0 * st.mo_comps.getD i 0)
          ≤ st.mo_comps.getD i 0 :=
        (le_div_iff (mul_pos (hk i hiN) (hc i hiN))).mp hle
      nlinarith [mul_le_mul_of_nonneg_left hA hfs0,
        mul_le_mul_of_nonneg_right hfs1 (hc i hiN).le]
    next => exact absurd hst' (by simp)

/-- C5 witness for the amended claim: the concrete linear-decay scenario
(`k = [1, 100]`, state `[1, 1]`, boundary 1, `f_s = 1/20`). -/
theorem euler_linear_decay_soluble_nonneg_spot :
    (∃ st', euler (linDecay kC5) 1 (1/20) 2 stC5 = some st') ∧
    (∀ st', euler (linDecay kC5) 1 (1/20) 2 stC5 = some st' →
      ∀ i, i < 1 → 0 ≤ st'.sludge_comps.getD i 0) :=
  euler_linear_decay_soluble_nonneg kC5 1 2 (1/20) 2 stC5 rfl rfl
    (by norm_num) (by norm_num)
    (by intro i hi; interval_cases i <;> norm_num [kC5])
    (by intro i hi; interval_cases i <;> norm_num [stC5])
    (by norm_num) (by norm_num)

/-- C10 witness: the CSTR invariant after the concrete Euler run on the
end-to-end scenario input. -/
theorem integrator_restores_cstr_invariant_spot :
    stC1post.mo_comps = stC1post.sludge_comps ∧
    stC1post.so_comps = stC1post.sludge_comps :=
  integrator_restores_cstr_invariant dCdtC1 1 (1/10) 2 "Euler" stC1 stC1post
    (Or.inl eulerC1_eval)

end PooPyLab
